import Mathlib

/-!
Shallow embedding of `src/pool.h`: the `Pool<T, GrowthFactor, MaxBlockSize>`
object pool and the `Multipool<Ts...>` dispatcher, together with proofs of
the behavioural properties claimed for them.

Modelling conventions:
* A slot of a pool is identified by the pair (index of its block in the
  block list, index of the slot inside that block).  Distinct identifiers
  denote disjoint memory regions: each block is a separately heap-allocated
  array, and distinct indices inside one block are distinct array elements.
* The intrusive singly linked free list (head pointer `m_nextFree`, links
  `Item::m_next` threaded through the free slots themselves) is modelled as
  the list of slots in chain order, head first.
* `size_t` values stay far below 2^64 in every scenario considered here, so
  they are modelled as `Nat`.
* C++ exceptions become `Option`: a `none` result of an operation is a
  propagated failure (or, for `popFree`, the null-pointer dereference the
  C++ would perform on an empty pool whose growth produced no slots).
-/

namespace Pools

/-- Identifier of one slot: (block index in allocation order, slot index
inside the block). -/
abbrev Slot : Type := Nat × Nat

/-- State of a `Pool<T, GrowthFactor, MaxBlockSize>` (src/pool.h:164-166).
`m_blocks` records the size (number of slots) of each allocated block in
allocation order, `m_blockSize` the current block-allocation size, and
`m_nextFree` the slots on the free list in chain order (head first). -/
structure PoolState where
  m_blocks : List Nat
  m_blockSize : Nat
  m_nextFree : List Slot
deriving DecidableEq

/-- Free list threaded through a freshly allocated block `b` of `size`
slots, as built by the loops at src/pool.h:44-45 and 138-139: slot `i-1`
links to slot `i`, the head is slot 0, and the last slot ends the chain
(new `Item`s are default-constructed with `m_next = nullptr`). -/
def blockFreeList (b : Nat) (size : Nat) : List Slot :=
  (List.range size).map (fun i => (b, i))

/-- The constructor `Pool(size_t size = 1)` (src/pool.h:27-48).  Returns
`none` when one of the two assertions fires (`size > 0`,
`size <= MaxBlockSize`); otherwise one block of `size` slots is allocated
and all its slots are threaded onto the free list. -/
def Pool.init (M : Nat) (size : Nat) : Option PoolState :=
  if size = 0 ∨ M < size then none
  else some { m_blocks := [size], m_blockSize := size, m_nextFree := blockFreeList 0 size }

/-- The growth step inside `allocate` (src/pool.h:124-142), run when
`m_nextFree == nullptr`: set `m_blockSize` to
`min(GrowthFactor * m_blockSize, MaxBlockSize)`, append one block of that
many slots, thread the new block into a fresh free list and point
`m_nextFree` at its first slot. -/
def grow (G M : Nat) (s : PoolState) : PoolState :=
  { m_blocks := s.m_blocks ++ [min (G * s.m_blockSize) M]
    m_blockSize := min (G * s.m_blockSize) M
    m_nextFree := blockFreeList s.m_blocks.length (min (G * s.m_blockSize) M) }

/-- Lines 144-146 of src/pool.h: take the head of the free list and advance
`m_nextFree` to its successor.  On an empty free list the C++ dereferences a
null pointer; that is modelled as `none`. -/
def popFree (s : PoolState) : Option (Slot × PoolState) :=
  match s.m_nextFree with
  | [] => none
  | f :: rest => some (f, { s with m_nextFree := rest })

/-- `Pool::allocate` (src/pool.h:121-147): grow when the free list is
empty, then hand out the head of the free list. -/
def allocate (G M : Nat) (s : PoolState) : Option (Slot × PoolState) :=
  if s.m_nextFree.isEmpty then popFree (grow G M s) else popFree s

/-- `Pool::construct` (src/pool.h:58-62) with a non-throwing object
constructor: `new (allocate()) type(args...)` returns the allocated slot,
now holding the constructed object. -/
def construct (G M : Nat) (s : PoolState) : Option (Slot × PoolState) :=
  allocate G M s

/-- `Pool::construct` with an object constructor that may throw, decided by
`ctorOk`.  `allocate()` runs first; if the placement-`new` constructor then
throws, the exception propagates (result `(none, state)`), and nothing puts
the already-unlinked slot back: the matching placement `operator delete` is
a no-op, so the slot is simply no longer on the free list. -/
def constructEx (G M : Nat) (ctorOk : Bool) (s : PoolState) :
    Option (Option Slot × PoolState) :=
  match allocate G M s with
  | none => none
  | some (p, t) => if ctorOk then some (some p, t) else some (none, t)

/-- `Pool::deallocate` (src/pool.h:149-154): link the slot to the current
free-list head and make it the new head. -/
def deallocate (s : PoolState) (p : Slot) : PoolState :=
  { s with m_nextFree := p :: s.m_nextFree }

/-- `Pool::destroy` (src/pool.h:64-71): no-op on a null pointer, otherwise
run the destructor (no effect on the pool state) and `deallocate`. -/
def destroy (s : PoolState) : Option Slot → PoolState
  | none => s
  | some p => deallocate s p

/-- `Pool::release` (src/pool.h:74-78): drop every block and null the
free-list head.  `m_blockSize` is not touched. -/
def release (s : PoolState) : PoolState :=
  { s with m_blocks := [], m_nextFree := [] }

/-- `Pool::full` (src/pool.h:80): `m_nextFree == nullptr`. -/
def full (s : PoolState) : Bool :=
  s.m_nextFree.isEmpty

/-- Number of slots on the free list, as counted by the traversal in
`Pool::print` (src/pool.h:84-90). -/
def freeCount (s : PoolState) : Nat :=
  s.m_nextFree.length

/-- Total number of slots the pool has ever allocated: the sum of the
sizes of its blocks. -/
def totalSlots (s : PoolState) : Nat :=
  s.m_blocks.sum

/-- State of the pool at the point where a growth attempt fails: line 128
(`m_blockSize = std::min(GrowthFactor * m_blockSize, MaxBlockSize)`) has
already executed when the `std::make_unique` call at line 137 (or the
`emplace_back`, whose strong guarantee leaves the vector unchanged) throws,
so the exception propagates with `m_blockSize` updated but `m_blocks` and
`m_nextFree` untouched. -/
def growOom (G M : Nat) (s : PoolState) : PoolState :=
  { s with m_blockSize := min (G * s.m_blockSize) M }

/-- `n` consecutive successful `construct` calls, returning the handed-out
slots in call order together with the final state (`none` as soon as one
call fails). -/
def constructN (G M : Nat) : Nat → PoolState → Option (List Slot × PoolState)
  | 0, s => some ([], s)
  | n + 1, s =>
    (construct G M s).bind fun r =>
      (constructN G M n r.2).bind fun r2 => some (r.1 :: r2.1, r2.2)

/-- One client operation on a pool. -/
inductive Op where
  | construct : Op
  | destroy : Slot → Op
  | release : Op
deriving DecidableEq

/-- Effect of one operation on the pool state.  A failing `construct`
(possible only on a degenerate pool whose growth yields zero slots) leaves
the state as the exception finds it. -/
def step (G M : Nat) (s : PoolState) : Op → PoolState
  | Op.construct =>
    match construct G M s with
    | none => s
    | some (_, t) => t
  | Op.destroy p => destroy s (some p)
  | Op.release => release s

/-- The concrete pool of the spec scenarios: `Pool<A, 2, 1024>` built with
initial size 8 (`A` is any 8-byte type). -/
def p8 : PoolState :=
  { m_blocks := [8], m_blockSize := 8, m_nextFree := blockFreeList 0 8 }

/-- The pool `p8` with its free list exhausted. -/
def p8full : PoolState :=
  { m_blocks := [8], m_blockSize := 8, m_nextFree := [] }

/-- A freshly constructed pool of initial size 16 (what `Pool.init` gives
for the size the grown block takes after `release p8`). -/
def p16 : PoolState :=
  { m_blocks := [16], m_blockSize := 16, m_nextFree := blockFreeList 0 16 }

/-- State of a `Multipool<T1..Tn>` (src/pool.h:174-222): one pool per type
of the fixed type list, addressed statically; index `i : Fin n` stands for
the `i`-th type of the list. -/
structure MultipoolState (n : Nat) where
  pools : Fin n → PoolState

/-- `Multipool::Multipool(size_t n)` (src/pool.h:178-180): every member
pool is constructed with the same initial size. -/
def Multipool.init (M : Nat) (k : Nat) (size : Nat) : Option (MultipoolState k) :=
  match Pool.init M size with
  | none => none
  | some s => some ⟨fun _ => s⟩

/-- `Multipool::construct<T>` (src/pool.h:183-187): dispatch to the pool of
the requested type. -/
def Multipool.construct (G M : Nat) {n : Nat} (mp : MultipoolState n) (i : Fin n) :
    Option (Slot × MultipoolState n) :=
  match Pools.construct G M (mp.pools i) with
  | none => none
  | some (p, s1) => some (p, ⟨fun j => if j = i then s1 else mp.pools j⟩)

/-- `Multipool::destroy<T>` (src/pool.h:190-194). -/
def Multipool.destroy {n : Nat} (mp : MultipoolState n) (i : Fin n) (p : Option Slot) :
    MultipoolState n :=
  ⟨fun j => if j = i then Pools.destroy (mp.pools j) p else mp.pools j⟩

/-- `Multipool::release<T>` (src/pool.h:197-201): release only the pool of
the named type. -/
def Multipool.release {n : Nat} (mp : MultipoolState n) (i : Fin n) : MultipoolState n :=
  ⟨fun j => if j = i then Pools.release (mp.pools j) else mp.pools j⟩

/-- Concrete two-type multipool used as a witness: type 0's pool is `p8`,
type 1's pool is the exhausted `p8full`. -/
def mp2 : MultipoolState 2 :=
  ⟨fun j => if j = (0 : Fin 2) then p8 else p8full⟩

/-- The free list of `p8` after its head slot `(0, 0)` has been handed
out. -/
def p8rest : List Slot :=
  [(0, 1), (0, 2), (0, 3), (0, 4), (0, 5), (0, 6), (0, 7)]

/-- The pool obtained from the exhausted `p8full` by one growing
`construct`: a second block of 16 slots was appended and its first slot
handed out. -/
def p8grown : PoolState :=
  { m_blocks := [8, 16], m_blockSize := 16, m_nextFree := (blockFreeList 1 16).tail }

/-- The 20 slots handed out when 20 objects are constructed on `p8`: the 8
slots of block 0 followed by the first 12 slots of the grown block 1. -/
def L20 : List Slot :=
  blockFreeList 0 8 ++ (List.range 12).map (fun i => (1, i))

/-- The state of `p8` after 20 constructs: blocks of sizes 8 and 16, with
the last 4 slots of block 1 still free. -/
def s20 : PoolState :=
  { m_blocks := [8, 16], m_blockSize := 16
    m_nextFree := [(1, 12), (1, 13), (1, 14), (1, 15)] }

/-- Block-list invariant: block sizes are non-decreasing in allocation
order, each is at most the current block size, and the current block size
is capped at `MaxBlockSize`. -/
def blocksOk (M : Nat) (s : PoolState) : Prop :=
  s.m_blocks.Chain' (fun a b => a ≤ b) ∧
  (∀ b ∈ s.m_blocks, b ≤ s.m_blockSize) ∧
  s.m_blockSize ≤ M

/-- Aliasing invariant of a pool together with the list `live` of slots
currently handed out: no slot appears twice among the free and live slots,
and every such slot lies in an existing block. -/
def wf (s : PoolState) (live : List Slot) : Prop :=
  (s.m_nextFree ++ live).Nodup ∧
  ∀ x ∈ s.m_nextFree ++ live, x.1 < s.m_blocks.length

/-! ### Basic computation lemmas -/

theorem popFree_eq (s : PoolState) (f : Slot) (rest : List Slot)
    (h : s.m_nextFree = f :: rest) :
    popFree s = some (f, { s with m_nextFree := rest }) := by
  unfold popFree
  rw [h]

theorem blockFreeList_succ (b k : Nat) :
    blockFreeList b (k + 1) = (b, 0) :: (List.range k).map (fun i => (b, i + 1)) := by
  unfold blockFreeList
  rw [List.range_succ_eq_map]
  simp [Function.comp]

theorem construct_of_full (G M : Nat) (s : PoolState) (h : s.m_nextFree = [])
    (hpos : 0 < min (G * s.m_blockSize) M) :
    construct G M s = some ((s.m_blocks.length, 0),
      { m_blocks := s.m_blocks ++ [min (G * s.m_blockSize) M]
        m_blockSize := min (G * s.m_blockSize) M
        m_nextFree := (blockFreeList s.m_blocks.length (min (G * s.m_blockSize) M)).tail }) := by
  unfold construct allocate
  rw [h]
  simp only [List.isEmpty_nil, if_true]
  cases hm : min (G * s.m_blockSize) M with
  | zero => omega
  | succ k =>
    have hg : (grow G M s).m_nextFree = (s.m_blocks.length, 0)
        :: (List.range k).map (fun i => (s.m_blocks.length, i + 1)) := by
      show blockFreeList s.m_blocks.length (min (G * s.m_blockSize) M) = _
      rw [hm, blockFreeList_succ]
    rw [popFree_eq _ _ _ hg]
    unfold grow
    rw [hm, blockFreeList_succ]
    rfl

/-! ### Claim theorems -/

/-- C1, counterexample: on the fresh pool `p8` (`Pool<A, 2, 1024>` with
initial size 8 and zero live objects), `release()` followed by `construct`
allocates a first block of size 16, not the initial size 8: `release` never
resets `m_blockSize`, so the growth step at src/pool.h:128 starts from the
pre-release value. -/
theorem C1_counterexample :
    Pool.init 1024 8 = some p8 ∧
    (construct 2 1024 (release p8)).map (fun r => r.2.m_blocks) = some [16] ∧
    (16 : Nat) ≠ 8 := by decide

/-- C1, amended: after `release()` with zero live objects, `construct`
succeeds, but the pre-release block size is kept, not reset: the first
block allocated after `release()` has size
`min(GrowthFactor * preReleaseBlockSize, MaxBlockSize)`, and the pool
behaves exactly as a pool freshly created with that size. -/
theorem C1_release_then_construct (G M : Nat) (s : PoolState)
    (hpos : 0 < min (G * s.m_blockSize) M) :
    (construct G M (release s)).map (fun r => r.2.m_blocks) =
      some [min (G * s.m_blockSize) M] ∧
    (∀ s1, Pool.init M (min (G * s.m_blockSize) M) = some s1 →
      construct G M (release s) = construct G M s1) := by
  have hcond : ¬ (min (G * s.m_blockSize) M = 0 ∨ M < min (G * s.m_blockSize) M) := by
    rintro (h1 | h2)
    · omega
    · exact absurd (min_le_right (G * s.m_blockSize) M) (Nat.not_le.mpr h2)
  constructor
  · rw [construct_of_full G M (release s) rfl hpos]
    simp [release]
  · intro s1 hs1
    have hrec : s1 = { m_blocks := [min (G * s.m_blockSize) M],
                       m_blockSize := min (G * s.m_blockSize) M,
                       m_nextFree := blockFreeList 0 (min (G * s.m_blockSize) M) } := by
      unfold Pool.init at hs1
      rw [if_neg hcond] at hs1
      exact (Option.some.inj hs1).symm
    have hne : s1.m_nextFree.isEmpty = false := by
      rw [hrec]
      cases hm : min (G * s.m_blockSize) M with
      | zero => omega
      | succ k => simp [blockFreeList_succ]
    calc construct G M (release s) = popFree (grow G M (release s)) := rfl
      _ = popFree s1 := by
          rw [hrec]
          rfl
      _ = construct G M s1 := by simp [construct, allocate, hne]

/-- Witness for C1 at `G = 2`, `M = 1024`, pool `p8`: the block allocated
by the first `construct` after `release` has size
`min(2 * 8, 1024) = 16`, and the construct behaves as on the fresh pool
`p16`. -/
theorem C1_release_then_construct_witness :
    (construct 2 1024 (release p8)).map (fun r => r.2.m_blocks) =
      some [min (2 * p8.m_blockSize) 1024] ∧
    construct 2 1024 (release p8) = construct 2 1024 p16 :=
  ⟨(C1_release_then_construct 2 1024 p8 (by decide)).1,
   (C1_release_then_construct 2 1024 p8 (by decide)).2 p16 (by decide)⟩

/-- C2, counterexample: on the fresh pool `p8` (free count 8), a
`construct` whose object constructor throws propagates the failure but
leaves the free count at 7, not 8: the slot popped by `allocate` is never
relinked (placement `operator delete` is a no-op), so it leaks. -/
theorem C2_counterexample :
    freeCount p8 = 8 ∧
    (constructEx 2 1024 false p8).map (fun r => (r.1, freeCount r.2)) =
      some (none, 7) ∧
    (7 : Nat) ≠ 8 := by decide

/-- C2, amended: when the object constructor fails, the failure propagates
to the caller of `construct` with no object produced, but the reserved slot
is NOT returned to the free list: it is removed from the (duplicate-free)
free list and leaked, so the free count after the failed call is one less
than before it. -/
theorem C2_ctor_failure (G M : Nat) (s : PoolState) (p : Slot) (rest : List Slot)
    (h : s.m_nextFree = p :: rest) (hnd : s.m_nextFree.Nodup) :
    constructEx G M false s = some (none, { s with m_nextFree := rest }) ∧
    p ∉ rest ∧
    freeCount { s with m_nextFree := rest } + 1 = freeCount s := by
  refine ⟨?_, ?_, ?_⟩
  · simp [constructEx, allocate, h, popFree_eq s p rest h]
  · have hnd' : (p :: rest).Nodup := h ▸ hnd
    exact (List.nodup_cons.mp hnd').1
  · unfold freeCount
    rw [h]
    rfl

/-- Witness for C2 on the fresh pool `p8`: the failed construct leaves the
state with free list `p8rest` (the 7 slots behind the leaked head slot
`(0, 0)`). -/
theorem C2_ctor_failure_witness :
    constructEx 2 1024 false p8 = some (none, { p8 with m_nextFree := p8rest }) ∧
    ((0 : Nat), (0 : Nat)) ∉ p8rest ∧
    freeCount { p8 with m_nextFree := p8rest } + 1 = freeCount p8 :=
  C2_ctor_failure 2 1024 p8 (0, 0) p8rest (by decide) (by decide)

/-- C3, counterexample: on the exhausted pool `p8full`, a growth attempt in
which the upstream allocation throws leaves `m_blockSize = 16 ≠ 8`: line
128 of src/pool.h updates `m_blockSize` before the throwing allocation at
line 137, so the state is not left unmodified. -/
theorem C3_counterexample :
    (growOom 2 1024 p8full).m_blockSize = 16 ∧
    p8full.m_blockSize = 8 ∧
    (growOom 2 1024 p8full).m_blockSize ≠ p8full.m_blockSize := by decide

/-- C3, amended: when the upstream allocator fails during growth, the
failure propagates to the caller of `construct` with the block list and the
free-list head unmodified, but `m_blockSize` has already been advanced to
`min(GrowthFactor * m_blockSize, MaxBlockSize)`. -/
theorem C3_oom_frame (G M : Nat) (s : PoolState) :
    (growOom G M s).m_blocks = s.m_blocks ∧
    (growOom G M s).m_nextFree = s.m_nextFree ∧
    (growOom G M s).m_blockSize = min (G * s.m_blockSize) M :=
  ⟨rfl, rfl, rfl⟩

/-- C8: `full()` is true iff the free list is empty; a `construct` call
allocates a new block iff `full()` holds when it is called (a non-full
pool's `construct` always succeeds without touching the block list or the
current block size, and a full pool's successful `construct` appends
exactly the block `min(GrowthFactor * m_blockSize, MaxBlockSize)`). -/
theorem C8_full_iff_growth (G M : Nat) (s : PoolState) :
    (full s = true ↔ s.m_nextFree = []) ∧
    (full s = false → ∀ p t, construct G M s = some (p, t) →
      t.m_blocks = s.m_blocks ∧ t.m_blockSize = s.m_blockSize) ∧
    (full s = false → ∃ p t, construct G M s = some (p, t)) ∧
    (full s = true → ∀ p t, construct G M s = some (p, t) →
      t.m_blocks = s.m_blocks ++ [min (G * s.m_blockSize) M]) := by
  cases hfl : s.m_nextFree with
  | nil =>
    refine ⟨by simp [full, hfl], ?_, ?_, ?_⟩
    · intro hf
      rw [full, hfl] at hf
      simp at hf
    · intro hf
      rw [full, hfl] at hf
      simp at hf
    · intro _ p t hc
      unfold construct allocate at hc
      rw [hfl] at hc
      simp only [List.isEmpty_nil, if_true] at hc
      unfold popFree at hc
      cases hg : (grow G M s).m_nextFree with
      | nil =>
        rw [hg] at hc
        exact Option.noConfusion hc
      | cons f rest =>
        rw [hg] at hc
        have ht : t = { grow G M s with m_nextFree := rest } :=
          (congrArg Prod.snd (Option.some.inj hc)).symm
        rw [ht]
        rfl
  | cons f rest =>
    have hcon : construct G M s = some (f, { s with m_nextFree := rest }) := by
      unfold construct allocate
      rw [hfl]
      simp only [List.isEmpty_cons, if_false, Bool.false_eq_true]
      exact popFree_eq s f rest hfl
    refine ⟨by simp [full, hfl], ?_, ?_, ?_⟩
    · intro _ p t hc
      rw [hcon] at hc
      have ht : t = { s with m_nextFree := rest } :=
        (congrArg Prod.snd (Option.some.inj hc)).symm
      rw [ht]
      exact ⟨rfl, rfl⟩
    · intro _
      exact ⟨f, { s with m_nextFree := rest }, hcon⟩
    · intro hf
      rw [full, hfl] at hf
      simp at hf

/-- Witness for C8: the exhausted pool `p8full` is full, and its next
successful `construct` (handing out slot `(1, 0)` and producing `p8grown`)
appends exactly one block of size `min(2 * 8, 1024) = 16`. -/
theorem C8_full_iff_growth_witness :
    (full p8full = true ↔ p8full.m_nextFree = []) ∧
    p8grown.m_blocks = p8full.m_blocks ++ [min (2 * p8full.m_blockSize) 1024] :=
  ⟨(C8_full_iff_growth 2 1024 p8full).1,
   (C8_full_iff_growth 2 1024 p8full).2.2.2 (by decide)
     ((1 : Nat), (0 : Nat)) p8grown (by decide)⟩

/-- C10: `release<A>()` on a multipool releases only type A's pool: every
other member pool's state (blocks and free list, hence also the storage of
its live objects) is unchanged, and constructing an object of another type
afterwards yields exactly the slot and pool state it would have yielded
before the release. -/
theorem C10_release_frame {n : Nat} (G M : Nat) (mp : MultipoolState n) (i j : Fin n)
    (hne : j ≠ i) :
    (Multipool.release mp i).pools j = mp.pools j ∧
    (Multipool.release mp i).pools i = Pools.release (mp.pools i) ∧
    (Multipool.construct G M (Multipool.release mp i) j).map (fun r => (r.1, r.2.pools j)) =
      (Multipool.construct G M mp j).map (fun r => (r.1, r.2.pools j)) := by
  have hj : (Multipool.release mp i).pools j = mp.pools j := by
    simp [Multipool.release, hne]
  refine ⟨hj, by simp [Multipool.release], ?_⟩
  unfold Multipool.construct
  rw [hj]
  cases hc : Pools.construct G M (mp.pools j) with
  | none => rfl
  | some r => simp

/-- Witness for C10 on the two-type multipool `mp2`: releasing type 0's
pool leaves type 1's pool (`p8full`) unchanged and constructible exactly as
before. -/
theorem C10_release_frame_witness :
    (Multipool.release mp2 0).pools 1 = mp2.pools 1 ∧
    (Multipool.release mp2 0).pools 0 = Pools.release (mp2.pools 0) ∧
    (Multipool.construct 2 1024 (Multipool.release mp2 0) 1).map (fun r => (r.1, r.2.pools 1)) =
      (Multipool.construct 2 1024 mp2 1).map (fun r => (r.1, r.2.pools 1)) :=
  C10_release_frame 2 1024 mp2 0 1 (by decide)

/-! ### Anatomy of a successful `construct` -/

theorem construct_cases (G M : Nat) (s : PoolState) (p : Slot) (t : PoolState)
    (hc : construct G M s = some (p, t)) :
    (s.m_nextFree = p :: t.m_nextFree ∧
      t.m_blocks = s.m_blocks ∧ t.m_blockSize = s.m_blockSize) ∨
    (s.m_nextFree = [] ∧ 0 < min (G * s.m_blockSize) M ∧
      p = (s.m_blocks.length, 0) ∧
      t = { m_blocks := s.m_blocks ++ [min (G * s.m_blockSize) M]
            m_blockSize := min (G * s.m_blockSize) M
            m_nextFree := (blockFreeList s.m_blocks.length
              (min (G * s.m_blockSize) M)).tail }) := by
  cases hfl : s.m_nextFree with
  | cons f rest =>
    left
    have hcon : construct G M s = some (f, { s with m_nextFree := rest }) := by
      unfold construct allocate
      rw [hfl]
      simp only [List.isEmpty_cons, if_false, Bool.false_eq_true]
      exact popFree_eq s f rest hfl
    rw [hcon] at hc
    injection hc with hpt
    injection hpt with h1 h2
    subst h1
    subst h2
    exact ⟨rfl, rfl, rfl⟩
  | nil =>
    right
    have hpos : 0 < min (G * s.m_blockSize) M := by
      by_contra hz
      have hz' : min (G * s.m_blockSize) M = 0 := by omega
      have hnone : construct G M s = none := by
        unfold construct allocate
        rw [hfl]
        simp only [List.isEmpty_nil, if_true]
        unfold popFree
        have hge : (grow G M s).m_nextFree = [] := by
          show blockFreeList s.m_blocks.length (min (G * s.m_blockSize) M) = []
          rw [hz']
          rfl
        rw [hge]
      rw [hnone] at hc
      exact Option.noConfusion hc
    have hcf := construct_of_full G M s hfl hpos
    rw [hcf] at hc
    have hpt := Option.some.inj hc
    exact ⟨rfl, hpos, (congrArg Prod.fst hpt).symm, (congrArg Prod.snd hpt).symm⟩

/-! ### The block-list invariant (claim C4) -/

theorem blocksOk_init (M size : Nat) (s : PoolState) (h : Pool.init M size = some s) :
    blocksOk M s := by
  unfold Pool.init at h
  by_cases hc : size = 0 ∨ M < size
  · rw [if_pos hc] at h
    exact Option.noConfusion h
  · rw [if_neg hc] at h
    push_neg at hc
    have hs := (Option.some.inj h).symm
    subst hs
    refine ⟨List.chain'_singleton size, ?_, ?_⟩
    · intro b hb
      have hb' : b = size := List.mem_singleton.mp hb
      show b ≤ size
      omega
    · show size ≤ M
      omega

theorem blocksOk_grow (G M : Nat) (hG : 1 ≤ G) (s : PoolState) (h : blocksOk M s) :
    blocksOk M (grow G M s) := by
  obtain ⟨hch, hle, hM⟩ := h
  have hbs : s.m_blockSize ≤ min (G * s.m_blockSize) M :=
    le_min (Nat.le_mul_of_pos_left _ hG) hM
  refine ⟨?_, ?_, min_le_right _ _⟩
  · refine List.Chain'.append hch (List.chain'_singleton _) ?_
    intro x hx y hy
    have hx' : x ∈ s.m_blocks := by
      obtain ⟨hne, rfl⟩ := List.mem_getLast?_eq_getLast hx
      exact List.getLast_mem hne
    have hy' : min (G * s.m_blockSize) M = y := by
      simpa using hy
    rw [← hy']
    exact le_trans (hle x hx') hbs
  · intro b hb
    rcases List.mem_append.mp hb with hb1 | hb2
    · exact le_trans (hle b hb1) hbs
    · exact le_of_eq (List.mem_singleton.mp hb2)

theorem blocksOk_construct (G M : Nat) (hG : 1 ≤ G) (s : PoolState) (p : Slot)
    (t : PoolState) (hc : construct G M s = some (p, t)) (h : blocksOk M s) :
    blocksOk M t := by
  rcases construct_cases G M s p t hc with ⟨_, hb, hbs⟩ | ⟨_, _, _, ht⟩
  · obtain ⟨hch, hle, hM⟩ := h
    unfold blocksOk
    rw [hb, hbs]
    exact ⟨hch, hle, hM⟩
  · have hg := blocksOk_grow G M hG s h
    subst ht
    exact hg

theorem blocksOk_step (G M : Nat) (hG : 1 ≤ G) (s : PoolState) (h : blocksOk M s)
    (op : Op) : blocksOk M (step G M s op) := by
  cases op with
  | construct =>
    unfold step
    cases hc : construct G M s with
    | none => exact h
    | some r => exact blocksOk_construct G M hG s r.1 r.2 (by rw [hc]) h
  | destroy p => exact h
  | release =>
    obtain ⟨_, _, hM⟩ := h
    exact ⟨List.chain'_nil, fun b hb => absurd hb (List.not_mem_nil b), hM⟩

theorem blocksOk_run (G M : Nat) (hG : 1 ≤ G) :
    ∀ (ops : List Op) (s : PoolState), blocksOk M s →
      blocksOk M (ops.foldl (step G M) s)
  | [], _, h => h
  | op :: ops, s, h =>
    blocksOk_run G M hG ops (step G M s op) (blocksOk_step G M hG s h op)

/-- C4: on a validly constructed pool, after any sequence of operations the
recorded block sizes are non-decreasing and bounded by `MaxBlockSize`, and
whenever `construct` is called with an empty free list it allocates exactly
one new block of size `min(GrowthFactor * m_blockSize, MaxBlockSize)`,
threads that block into a fresh free list whose head (the new block's first
slot) it hands out, and updates `m_blockSize` to the new block's size. -/
theorem C4_growth_policy (G M : Nat) (hG : 1 ≤ G) (size : Nat) (s0 : PoolState)
    (hinit : Pool.init M size = some s0) (ops : List Op) (s : PoolState)
    (hs : s = ops.foldl (step G M) s0) :
    (s.m_blocks.Chain' (fun a b => a ≤ b) ∧ ∀ b ∈ s.m_blocks, b ≤ M) ∧
    (s.m_nextFree = [] → 0 < min (G * s.m_blockSize) M →
      construct G M s = some ((s.m_blocks.length, 0),
        { m_blocks := s.m_blocks ++ [min (G * s.m_blockSize) M]
          m_blockSize := min (G * s.m_blockSize) M
          m_nextFree := (blockFreeList s.m_blocks.length
            (min (G * s.m_blockSize) M)).tail })) := by
  subst hs
  obtain ⟨hch, hle, hM⟩ :=
    blocksOk_run G M hG ops s0 (blocksOk_init M size s0 hinit)
  exact ⟨⟨hch, fun b hb => le_trans (hle b hb) hM⟩,
    fun hfl hpos => construct_of_full G M _ hfl hpos⟩

/-- Witness for C4: running 8 constructs on the fresh pool `p8` exhausts it
into `p8full`; the block sizes `[8]` are sorted and bounded by 1024, and
the next construct appends exactly the block of size `min(2 * 8, 1024)`. -/
theorem C4_growth_policy_witness :
    (p8full.m_blocks.Chain' (fun a b => a ≤ b) ∧ (8 : Nat) ≤ 1024) ∧
    construct 2 1024 p8full = some ((p8full.m_blocks.length, 0),
      { m_blocks := p8full.m_blocks ++ [min (2 * p8full.m_blockSize) 1024]
        m_blockSize := min (2 * p8full.m_blockSize) 1024
        m_nextFree := (blockFreeList p8full.m_blocks.length
          (min (2 * p8full.m_blockSize) 1024)).tail }) := by
  have h := C4_growth_policy 2 1024 (by decide) 8 p8 (by decide)
    (List.replicate 8 Op.construct) p8full (by decide)
  exact ⟨⟨h.1.1, h.1.2 8 (by decide)⟩, h.2 (by decide) (by decide)⟩

/-! ### Free-count accounting (claim C5) -/

theorem construct_counts (G M : Nat) (s : PoolState) (p : Slot) (t : PoolState)
    (hc : construct G M s = some (p, t)) :
    freeCount t + 1 + totalSlots s = freeCount s + totalSlots t := by
  rcases construct_cases G M s p t hc with ⟨hfree, hb, _⟩ | ⟨hfl, hpos, _, ht⟩
  · unfold freeCount totalSlots
    rw [hfree, hb]
    simp only [List.length_cons]
  · subst ht
    unfold freeCount totalSlots
    rw [hfl]
    have hlen : ((blockFreeList s.m_blocks.length
        (min (G * s.m_blockSize) M)).tail).length = min (G * s.m_blockSize) M - 1 := by
      rw [List.length_tail]
      unfold blockFreeList
      simp
    rw [hlen]
    simp only [List.sum_append, List.sum_cons, List.sum_nil, List.length_nil]
    omega

theorem constructN_counts (G M : Nat) :
    ∀ (n : Nat) (s : PoolState) (L : List Slot) (t : PoolState),
      constructN G M n s = some (L, t) →
      L.length = n ∧ freeCount t + n + totalSlots s = freeCount s + totalSlots t
  | 0, s, L, t, h => by
    unfold constructN at h
    injection h with h'
    injection h' with h1 h2
    subst h1
    subst h2
    exact ⟨rfl, by omega⟩
  | n + 1, s, L, t, h => by
    unfold constructN at h
    cases hc : construct G M s with
    | none =>
      rw [hc] at h
      exact Option.noConfusion h
    | some r =>
      obtain ⟨p, s1⟩ := r
      rw [hc] at h
      simp only [Option.some_bind] at h
      cases hn : constructN G M n s1 with
      | none =>
        rw [hn] at h
        exact Option.noConfusion h
      | some r2 =>
        obtain ⟨ps, t2⟩ := r2
        rw [hn] at h
        simp only [Option.some_bind] at h
        injection h with h'
        injection h' with h1 h2
        subst h1
        subst h2
        have ih := constructN_counts G M n s1 ps t2 hn
        have hcc := construct_counts G M s p s1 hc
        refine ⟨?_, ?_⟩
        · simp only [List.length_cons, ih.1]
        · have ih2 := ih.2
          omega

theorem destroyAll_counts :
    ∀ (L : List Slot) (t : PoolState),
      freeCount (L.foldl (fun u p => destroy u (some p)) t) = freeCount t + L.length ∧
      totalSlots (L.foldl (fun u p => destroy u (some p)) t) = totalSlots t
  | [], t => ⟨by simp [freeCount], rfl⟩
  | p :: L, t => by
    have ih := destroyAll_counts L (destroy t (some p))
    simp only [List.foldl_cons]
    refine ⟨?_, ?_⟩
    · rw [ih.1]
      show freeCount t + 1 + L.length = freeCount t + (L.length + 1)
      omega
    · rw [ih.2]
      rfl

/-- C5, counterexample: constructing 1 object on the fresh pool `p8` and
then destroying it leaves the free count at 8 (no growth occurred, so the
slots gained are 0), whereas the claimed formula
`free count before − N + gained` predicts `8 − 1 + 0 = 7`: after the
destroys the free count is back to `before + gained`, not
`before − N + gained`. -/
theorem C5_counterexample :
    (constructN 2 1024 1 p8).map
      (fun r => freeCount (r.1.foldl (fun u p => destroy u (some p)) r.2)) = some 8 ∧
    (constructN 2 1024 1 p8).map (fun r => totalSlots r.2) = some (totalSlots p8) ∧
    freeCount p8 = 8 ∧
    (8 : Nat) ≠ freeCount p8 - 1 + 0 := by decide

/-- C5, amended: constructing `N` objects leaves the free count at
`free count before − N + gained` where `gained` is the number of slots
added by growth during the `N` constructs (stated additively:
`after + N + totalBefore = before + totalAfter`); then destroying all `N`
objects, in any order, brings the free count to `before + gained`.  In
particular, on the 8-slot pool `p8` (growth 2, max 1024), 20 constructs
allocate blocks of sizes 8 then 16 and leave free count 4, and destroying
all 20 leaves free count 24. -/
theorem C5_roundtrip (G M N : Nat) (s t : PoolState) (L Ld : List Slot)
    (h : constructN G M N s = some (L, t)) (hperm : List.Perm Ld L) :
    L.length = N ∧
    freeCount t + N + totalSlots s = freeCount s + totalSlots t ∧
    freeCount (Ld.foldl (fun u p => destroy u (some p)) t) + totalSlots s =
      freeCount s + totalSlots t ∧
    (constructN 2 1024 20 p8).map (fun r => (r.2.m_blocks, freeCount r.2)) =
      some ([8, 16], 4) ∧
    (constructN 2 1024 20 p8).map
      (fun r => freeCount (r.1.foldl (fun u p => destroy u (some p)) r.2)) = some 24 := by
  have hc := constructN_counts G M N s L t h
  have hd := destroyAll_counts Ld t
  refine ⟨hc.1, hc.2, ?_, by decide, by decide⟩
  have hlen : Ld.length = N := by rw [hperm.length_eq, hc.1]
  have hc2 := hc.2
  rw [hd.1, hlen]
  omega

/-- Witness for C5: the 20 constructs on `p8` hand out exactly the slots
`L20` and reach the state `s20` (blocks `[8, 16]`, free count 4), and
destroying all 20 brings the free count to 24. -/
theorem C5_roundtrip_witness :
    L20.length = 20 ∧
    freeCount s20 + 20 + totalSlots p8 = freeCount p8 + totalSlots s20 ∧
    freeCount (L20.foldl (fun u p => destroy u (some p)) s20) + totalSlots p8 =
      freeCount p8 + totalSlots s20 ∧
    (constructN 2 1024 20 p8).map (fun r => (r.2.m_blocks, freeCount r.2)) =
      some ([8, 16], 4) ∧
    (constructN 2 1024 20 p8).map
      (fun r => freeCount (r.1.foldl (fun u p => destroy u (some p)) r.2)) = some 24 :=
  C5_roundtrip 2 1024 20 p8 s20 L20 L20 (by decide) (List.Perm.refl L20)

/-! ### The aliasing invariant (claim C7) -/

theorem wf_init (M size : Nat) (s : PoolState) (h : Pool.init M size = some s) :
    wf s [] := by
  unfold Pool.init at h
  by_cases hc : size = 0 ∨ M < size
  · rw [if_pos hc] at h
    exact Option.noConfusion h
  · rw [if_neg hc] at h
    have hs := (Option.some.inj h).symm
    subst hs
    constructor
    · show (blockFreeList 0 size ++ []).Nodup
      rw [List.append_nil]
      exact List.Nodup.map (fun a b hab => congrArg Prod.snd hab) (List.nodup_range size)
    · intro x hx
      show x.1 < 1
      have hx' : x ∈ blockFreeList 0 size := by
        have : x ∈ blockFreeList 0 size ++ [] := hx
        simpa using this
      obtain ⟨i, _, hxi⟩ := List.mem_map.mp hx'
      rw [← hxi]
      exact Nat.zero_lt_one

theorem wf_perm (s : PoolState) (l1 l2 : List Slot) (hp : List.Perm l1 l2)
    (h : wf s l1) : wf s l2 := by
  obtain ⟨hnd, hb⟩ := h
  have hp' : List.Perm (s.m_nextFree ++ l1) (s.m_nextFree ++ l2) :=
    List.Perm.append_left s.m_nextFree hp
  exact ⟨hp'.nodup hnd, fun x hx => hb x (hp'.mem_iff.mpr hx)⟩

theorem wf_construct (G M : Nat) (s : PoolState) (live : List Slot) (p : Slot)
    (t : PoolState) (hc : construct G M s = some (p, t)) (h : wf s live) :
    wf t (p :: live) := by
  obtain ⟨hnd, hb⟩ := h
  rcases construct_cases G M s p t hc with ⟨hfree, hbk, _⟩ | ⟨hfl, hpos, hp, ht⟩
  · have hnd1 : ((p :: t.m_nextFree) ++ live).Nodup := by
      rw [← hfree]
      exact hnd
    have hperm : List.Perm (p :: (t.m_nextFree ++ live)) (t.m_nextFree ++ p :: live) :=
      List.perm_middle.symm
    constructor
    · exact hperm.nodup hnd1
    · intro x hx
      have hx2 : x ∈ (p :: t.m_nextFree) ++ live := hperm.mem_iff.mpr hx
      have hx3 : x ∈ s.m_nextFree ++ live := by
        rw [hfree]
        exact hx2
      have hlt := hb x hx3
      rw [hbk]
      exact hlt
  · subst hp
    subst ht
    rw [hfl] at hnd hb
    simp only [List.nil_append] at hnd hb
    obtain ⟨k, hk⟩ : ∃ k, min (G * s.m_blockSize) M = k + 1 :=
      ⟨min (G * s.m_blockSize) M - 1, by omega⟩
    constructor
    · show ((blockFreeList s.m_blocks.length (min (G * s.m_blockSize) M)).tail ++
        (s.m_blocks.length, 0) :: live).Nodup
      rw [hk, blockFreeList_succ]
      show ((List.range k).map (fun i => (s.m_blocks.length, i + 1)) ++
        (s.m_blocks.length, 0) :: live).Nodup
      refine List.Nodup.append ?_ ?_ ?_
      · refine List.Nodup.map ?_ (List.nodup_range k)
        intro a b hab
        have hs : a + 1 = b + 1 := congrArg Prod.snd hab
        omega
      · rw [List.nodup_cons]
        refine ⟨?_, hnd⟩
        intro hmem
        exact Nat.lt_irrefl _ (hb _ hmem)
      · intro a ha hmem
        obtain ⟨i, _, hai⟩ := List.mem_map.mp ha
        rcases List.mem_cons.mp hmem with h0 | hlive
        · rw [h0] at hai
          have hsnd := congrArg Prod.snd hai
          simp at hsnd
        · have hlt := hb a hlive
          rw [← hai] at hlt
          exact Nat.lt_irrefl _ hlt
    · intro x hx
      show x.1 < (s.m_blocks ++ [min (G * s.m_blockSize) M]).length
      rw [List.length_append]
      have hx' : x ∈ (blockFreeList s.m_blocks.length (min (G * s.m_blockSize) M)).tail ++
          (s.m_blocks.length, 0) :: live := hx
      rcases List.mem_append.mp hx' with hfree2 | hcons
      · have hmem : x ∈ blockFreeList s.m_blocks.length (min (G * s.m_blockSize) M) :=
          List.mem_of_mem_tail hfree2
        obtain ⟨i, _, hxi⟩ := List.mem_map.mp hmem
        rw [← hxi]
        simp
      · rcases List.mem_cons.mp hcons with h0 | hlive
        · rw [h0]
          simp
        · have hlt := hb x hlive
          simp
          omega

theorem wf_constructN (G M : Nat) :
    ∀ (n : Nat) (s : PoolState) (live L : List Slot) (t : PoolState),
      wf s live → constructN G M n s = some (L, t) → wf t (L ++ live)
  | 0, s, live, L, t, hw, h => by
    unfold constructN at h
    injection h with h'
    injection h' with h1 h2
    subst h1
    subst h2
    exact hw
  | n + 1, s, live, L, t, hw, h => by
    unfold constructN at h
    cases hc : construct G M s with
    | none =>
      rw [hc] at h
      exact Option.noConfusion h
    | some r =>
      obtain ⟨p, s1⟩ := r
      rw [hc] at h
      simp only [Option.some_bind] at h
      cases hn : constructN G M n s1 with
      | none =>
        rw [hn] at h
        exact Option.noConfusion h
      | some r2 =>
        obtain ⟨ps, t2⟩ := r2
        rw [hn] at h
        simp only [Option.some_bind] at h
        injection h with h'
        injection h' with h1 h2
        subst h1
        subst h2
        have hw1 := wf_construct G M s live p s1 hc hw
        have ih := wf_constructN G M n s1 (p :: live) ps t2 hw1 hn
        exact wf_perm t2 _ _ List.perm_middle ih

/-- C7: on a validly constructed pool, any sequence of `construct` calls
without interleaved destroys hands out pairwise distinct slots, i.e. the
concurrently live handles refer to non-overlapping memory regions. -/
theorem C7_no_aliasing (G M size N : Nat) (s0 t : PoolState) (L : List Slot)
    (hinit : Pool.init M size = some s0)
    (h : constructN G M N s0 = some (L, t)) :
    L.Nodup := by
  have hw := wf_constructN G M N s0 [] L t (wf_init M size s0 hinit) h
  have hnd := hw.1
  rw [List.append_nil] at hnd
  exact List.Nodup.of_append_right hnd

/-- Witness for C7: the 20 slots handed out by 20 constructs on the fresh
8-slot pool are pairwise distinct. -/
theorem C7_no_aliasing_witness : L20.Nodup :=
  C7_no_aliasing 2 1024 8 20 p8 s20 L20 (by decide) (by decide)

/-- C6: destroying a live handle `x` and then immediately calling
`construct` hands back exactly the slot `x` and restores the pool state:
`destroy` pushes the freed slot onto the front of the free list, and
`construct` always takes the head of the free list (LIFO reuse). -/
theorem C6_lifo_reuse (G M : Nat) (s : PoolState) (x : Slot) :
    construct G M (destroy s (some x)) = some (x, s) := rfl

/-- C9: `Pool(initialSize)` fails its assertions iff `initialSize = 0` or
`initialSize > MaxBlockSize`; every successful construction yields a pool
with exactly one block, of size `initialSize`, whose `initialSize` slots
are all free. -/
theorem C9_ctor_contract (M size : Nat) :
    (Pool.init M size = none ↔ size = 0 ∨ M < size) ∧
    (∀ s, Pool.init M size = some s →
      s.m_blocks = [size] ∧ s.m_blockSize = size ∧ freeCount s = size) := by
  constructor
  · constructor
    · intro h
      by_contra hc
      unfold Pool.init at h
      rw [if_neg hc] at h
      exact Option.noConfusion h
    · intro h
      unfold Pool.init
      rw [if_pos h]
  · intro s hs
    unfold Pool.init at hs
    by_cases hc : size = 0 ∨ M < size
    · rw [if_pos hc] at hs
      exact Option.noConfusion hs
    · rw [if_neg hc] at hs
      have hs' := Option.some.inj hs
      subst hs'
      refine ⟨rfl, rfl, ?_⟩
      unfold freeCount blockFreeList
      simp

/-- Witness for C9 at `MaxBlockSize = 1024`, `initialSize = 8`. -/
theorem C9_ctor_contract_witness :
    p8.m_blocks = [8] ∧ p8.m_blockSize = 8 ∧ freeCount p8 = 8 :=
  (C9_ctor_contract 1024 8).2 p8 (by decide)

end Pools
